import Mathlib

/-!
Verification of the CalorieHawk nutrition service
(`CalorieHawk/backend/fastapi/app/main.py`, with the near-identical simple
flow in `python-api/main.py`).

The Python code is shallowly embedded: JSON-decoded Python values are the
inductive `Json` (Python `None` is `jnull`; JSON distinguishes integers from
floats, and so does Python, hence separate `jint` / `jfloat` constructors,
with finite floats idealized as rationals); dictionaries are association
lists where a later binding shadows an earlier one; an uncaught Python
exception is modelled by an `Option`-valued function returning `none`.
Python-specific coercions (`float(...)`, `int(...)`, `str(...)`, truthiness,
`x or y`) are embedded by the `py*` helpers below.
-/

/-- A JSON-decoded Python value. -/
inductive Json where
  | jnull
  | jbool (b : Bool)
  | jint (n : Int)
  | jfloat (q : ℚ)
  | jstr (s : String)
  | jarr (xs : List Json)
  | jobj (kvs : List (String × Json))

/-- Python truthiness of a JSON-decoded value:
`None`, `False`, `0`, `0.0`, `""`, `[]`, `{}` are falsy. -/
def pyTruthy : Json → Bool
  | .jnull => false
  | .jbool b => b
  | .jint n => n != 0
  | .jfloat q => q != 0
  | .jstr s => !(s = "")
  | .jarr xs => !xs.isEmpty
  | .jobj kvs => !kvs.isEmpty

/-- `dict.get(k)` on an association list: the latest binding of `k`, if any. -/
def jGet (kvs : List (String × Json)) (k : String) : Option Json :=
  kvs.foldl (fun acc p => if p.1 = k then some p.2 else acc) none

/-- `dict.get(k)` returning Python `None` (`jnull`) when the key is missing.
A JSON `null` value and a missing key are indistinguishable to `d.get(k)`. -/
def pyGet (kvs : List (String × Json)) (k : String) : Json :=
  (jGet kvs k).getD .jnull

/-- Python `a or b` on JSON values: `a` when truthy, else `b`. -/
def pyOrJ (a b : Json) : Json := if pyTruthy a then a else b

/-- Python `a or b` where both operands are optional floats
(`None` and `0.0` are falsy, so a zero on the left is discarded). -/
def pyOrQ (a b : Option ℚ) : Option ℚ :=
  match a with
  | some q => if q ≠ 0 then some q else b
  | none => b

/-- Digits of a character list as a natural number; `none` if any
character is not a decimal digit. -/
def digitsVal (cs : List Char) : Option Nat :=
  cs.foldlM (fun acc c => if c.isDigit then some (acc * 10 + (c.toNat - 48)) else none) 0

/-- Unsigned decimal literal (`"12"`, `"12.5"`, `"12."`, `".5"`); exponent
forms and exotic spellings are outside the model and parse as `none`. -/
def parseUnsignedDecimal (cs : List Char) : Option ℚ :=
  let intPart := cs.takeWhile (·.isDigit)
  let rest := cs.dropWhile (·.isDigit)
  match rest with
  | [] => if intPart.isEmpty then none else (digitsVal intPart).map (fun n => (n : ℚ))
  | '.' :: frac =>
      if intPart.isEmpty && frac.isEmpty then none
      else
        match digitsVal intPart, digitsVal frac with
        | some i, some f => some ((i : ℚ) + (f : ℚ) / (10 : ℚ) ^ frac.length)
        | _, _ => none
  | _ => none

/-- Python `float(s)` on a string, for plain decimal literals. -/
def pyParseFloat (s : String) : Option ℚ :=
  match s.data with
  | '-' :: rest => (parseUnsignedDecimal rest).map (fun q => -q)
  | '+' :: rest => parseUnsignedDecimal rest
  | cs => parseUnsignedDecimal cs

/-- Python `int(s)` on a string: sign and digits only (`int("3.5")` raises). -/
def pyParseInt (s : String) : Option Int :=
  match s.data with
  | '-' :: rest => (digitsVal rest).map (fun n => -(n : Int))
  | '+' :: rest => (digitsVal rest).map (fun n => (n : Int))
  | cs => (digitsVal cs).map (fun n => (n : Int))

/-- Python `float(v)` on a JSON-decoded value; `none` models the raised
`TypeError`/`ValueError` (callers catch it). `float(True) = 1.0`. -/
def pyFloat : Json → Option ℚ
  | .jint n => some (n : ℚ)
  | .jfloat q => some q
  | .jbool b => some (if b then 1 else 0)
  | .jstr s => pyParseFloat s
  | _ => none

/-- Python `int(v)` on a JSON-decoded value; floats truncate toward zero;
`none` models the raised exception. -/
def pyInt : Json → Option Int
  | .jint n => some n
  | .jfloat q => some (q.num / (q.den : Int))
  | .jbool b => some (if b then 1 else 0)
  | .jstr s => pyParseInt s
  | _ => none

/-- Python `str(v)`. The only use in the program is as a dictionary key later
compared with the digit-only code strings `"208"`/`"203"`/`"204"`/`"205"`, so
all that matters is equality behaviour: the string of an integer is its
digits, and the string of a float, list or dict always contains a character
(`.`, `[`, `{`) that keeps it distinct from any digit-only code. -/
def pyStr : Json → String
  | .jstr s => s
  | .jint n => toString n
  | .jbool b => if b then "True" else "False"
  | .jnull => "None"
  | .jfloat q => toString q ++ "."
  | .jarr _ => "[arr]"
  | .jobj _ => "{obj}"

/-- Python `x == code` where `code` is a `str`: only a `str` can be equal. -/
def jsonEqStr (j : Json) (code : String) : Bool :=
  match j with
  | .jstr t => t = code
  | _ => false

/-- Python `round(x, 3)` idealized over ℚ: round half to even at the third
decimal place (the spec fixes 3-decimal rounding and allows either half-even
or half-away; Python's convention is half-even). -/
def round3 (q : ℚ) : ℚ :=
  let b := q * 1000
  let f := ⌊b⌋
  let r := b - (f : ℚ)
  let n : ℤ := if r < 1/2 then f else if 1/2 < r then f + 1
               else if f % 2 = 0 then f else f + 1
  (n : ℚ) / 1000

/-- The four-slot macro record produced by nutrient extraction and merging
(`Dict[str, Optional[float]]` with keys kcal/protein_g/fat_g/carbs_g).
Absence (`none`) is distinct from a zero value. -/
structure NutrientRecord where
  kcal : Option ℚ
  protein_g : Option ℚ
  fat_g : Option ℚ
  carbs_g : Option ℚ
  deriving DecidableEq, Repr

/-- `x if x is not None else y` — unlike `pyOrQ` this is a genuine
`None`-check, so a present zero on the left wins. -/
def noneElse (x y : Option ℚ) : Option ℚ :=
  match x with
  | some v => some v
  | none => y

/-- The inner `pick` of `_extract_from_label_nutrients` (main.py:135-143):
a label entry contributes only when it is a dict whose `"value"` converts to
a float; every failure mode is caught and yields `None`. -/
def labelPick (kvs : List (String × Json)) (key : String) : Option ℚ :=
  match pyGet kvs key with
  | .jobj vkvs =>
      match pyGet vkvs "value" with
      | .jnull => none
      | v => pyFloat v
  | _ => none

/-- `_extract_from_label_nutrients` (main.py:132-150). The outer `Option` is
`none` when the Python code would raise: `detail.get("labelNutrients") or {}`
keeps a truthy non-dict value, on which `ln.get(...)` raises
`AttributeError` uncaught. -/
def extractFromLabelNutrients (detail : List (String × Json)) : Option NutrientRecord :=
  match pyOrJ (pyGet detail "labelNutrients") (.jobj []) with
  | .jobj kvs =>
      some ⟨labelPick kvs "calories", labelPick kvs "protein",
            labelPick kvs "fat", labelPick kvs "carbohydrates"⟩
  | _ => none

/-- `if nutrient_id is not None: try: nums_by_id[int(nutrient_id)] = amt
except: pass` (main.py:180-184): a non-integer id inserts nothing. -/
def idInsert (st : (Int → Option ℚ) × (String → Option ℚ)) (nid : Json) (amt : ℚ) :
    (Int → Option ℚ) × (String → Option ℚ) :=
  match nid with
  | .jnull => st
  | idv =>
    match pyInt idv with
    | some i => (fun j => if j = i then some amt else st.1 j, st.2)
    | none => st

/-- `if number: nums_by_number[str(number)] = amt` (main.py:186-187). -/
def numInsert (st : (Int → Option ℚ) × (String → Option ℚ)) (number : Json) (amt : ℚ) :
    (Int → Option ℚ) × (String → Option ℚ) :=
  if pyTruthy number then (st.1, fun s => if s = pyStr number then some amt else st.2 s)
  else st

/-- One iteration of the `for n in detail.get("foodNutrients", []) or []`
loop of `_extract_from_food_nutrients` (main.py:166-187), threading the two
dictionaries `nums_by_id` / `nums_by_number` as functions. `none` models an
uncaught exception (`n.get` or `nutrient.get` on a non-dict). -/
def foodNutrientStep (st : (Int → Option ℚ) × (String → Option ℚ)) (n : Json) :
    Option ((Int → Option ℚ) × (String → Option ℚ)) :=
  match n with
  | .jobj nkvs =>
    match pyOrJ (pyGet nkvs "nutrient") (.jobj []) with
    | .jobj nutkvs =>
      match pyGet nkvs "amount" with
      | .jnull => some st
      | av =>
        match pyFloat av with
        | none => some st
        | some amt =>
          some (numInsert (idInsert st (pyGet nutkvs "id") amt) (pyGet nutkvs "number") amt)
    | _ => none
  | _ => none

/-- The loop of `_extract_from_food_nutrients` (main.py:163-187): the two
measured dictionaries after all entries are processed. `none` models an
uncaught exception (iterating a truthy non-list `foodNutrients`, or a
malformed entry raising inside the loop). -/
def measuredMaps (detail : List (String × Json)) :
    Option ((Int → Option ℚ) × (String → Option ℚ)) :=
  match pyOrJ (pyGet detail "foodNutrients") (.jarr []) with
  | .jarr xs => xs.foldlM foodNutrientStep (fun _ => none, fun _ => none)
  | _ => none

/-- The four canonical reads of `_extract_from_food_nutrients`
(main.py:190-200): Python `or` of the id-keyed and code-keyed values (so a
zero id-keyed value defers to the code-keyed value). -/
def mkMeasuredRecord (st : (Int → Option ℚ) × (String → Option ℚ)) : NutrientRecord :=
  ⟨pyOrQ (st.1 1008) (st.2 "208"),
   pyOrQ (st.1 1003) (st.2 "203"),
   pyOrQ (st.1 1004) (st.2 "204"),
   pyOrQ (st.1 1005) (st.2 "205")⟩

/-- `_extract_from_food_nutrients` (main.py:153-200). -/
def extractFromFoodNutrients (detail : List (String × Json)) : Option NutrientRecord :=
  (measuredMaps detail).map mkMeasuredRecord

/-- The slot-wise merge loop of `_merge_nutrient_sources` (main.py:212-214):
`a.get(k) if a.get(k) is not None else b.get(k)` for each of the four slots. -/
def mergeSlots (a b : NutrientRecord) : NutrientRecord :=
  ⟨noneElse a.kcal b.kcal,
   noneElse a.protein_g b.protein_g,
   noneElse a.fat_g b.fat_g,
   noneElse a.carbs_g b.carbs_g⟩

/-- The derived-kcal step of `_merge_nutrient_sources` (main.py:216-226):
when kcal is `None` and at least one macro is not `None`, set
`kcal = round(4p + 4c + 9f, 3)` with missing macros as `0.0`. -/
def deriveKcal (m : NutrientRecord) : NutrientRecord :=
  match m.kcal with
  | some _ => m
  | none =>
    if m.protein_g.isSome || m.fat_g.isSome || m.carbs_g.isSome then
      { m with kcal := some (round3
          (4 * m.protein_g.getD 0 + 4 * m.carbs_g.getD 0 + 9 * m.fat_g.getD 0)) }
    else m

/-- `_merge_nutrient_sources` (main.py:203-228); `none` models an uncaught
exception raised by one of the extractors. -/
def mergeNutrientSources (detail : List (String × Json)) : Option NutrientRecord := do
  let a ← extractFromLabelNutrients detail
  let b ← extractFromFoodNutrients detail
  pure (deriveKcal (mergeSlots a b))

/-- Map `round3` over every present slot of a record. -/
def roundRecord (n : NutrientRecord) : NutrientRecord :=
  ⟨n.kcal.map round3, n.protein_g.map round3, n.fat_g.map round3, n.carbs_g.map round3⟩

/-- Scale every present slot by a factor and round to 3 decimals
(the dictionary comprehension shared by `_per_100g` and `_scaled`). -/
def scaleRecord (n : NutrientRecord) (f : ℚ) : NutrientRecord :=
  ⟨n.kcal.map (fun v => round3 (v * f)),
   n.protein_g.map (fun v => round3 (v * f)),
   n.fat_g.map (fun v => round3 (v * f)),
   n.carbs_g.map (fun v => round3 (v * f))⟩

/-- The all-absent record `{k: None for k in ...}`. -/
def emptyRecord : NutrientRecord := ⟨none, none, none, none⟩

/-- `_per_100g` (main.py:242-249). `if not grams_basis or grams_basis <= 0`
covers a missing basis, a zero basis (falsy float) and a negative basis. -/
def per100g (n : NutrientRecord) (gramsBasis : Option ℚ) : NutrientRecord :=
  match gramsBasis with
  | none => emptyRecord
  | some b => if b ≤ 0 then emptyRecord else scaleRecord n (100 / b)

/-- `_scaled` (main.py:252-260): same guard, factor `grams / grams_basis`. -/
def scaled (n : NutrientRecord) (grams : ℚ) (gramsBasis : Option ℚ) : NutrientRecord :=
  match gramsBasis with
  | none => emptyRecord
  | some b => if b ≤ 0 then emptyRecord else scaleRecord n (grams / b)

/-- A search-result entry as read by `rank_key` and the probing loop of
`macros` (main.py:326-363): `fdcId` (`None` when the key is missing or the
JSON value was null), `dataType` likewise, the length of
`it.get("foodNutrients") or []`, and `it.get("score")`. -/
structure FoodCandidate where
  fdcId : Option Int
  dataType : Option String
  foodNutrientsLen : Nat
  score : Option ℚ
  deriving DecidableEq, Repr

/-- `PREFERRED_TYPES` (main.py:48). -/
def PREFERRED_TYPES : List String := ["Foundation", "SR Legacy", "Branded"]

/-- The category-rank component of `rank_key` (main.py:328-332):
index in `PREFERRED_TYPES`, else 3 for `"Survey (FNDDS)"`, else 4.
`dt = it.get("dataType") or ""` maps a missing/falsy category to `""`. -/
def typeRank (dt : String) : Int :=
  if dt ∈ PREFERRED_TYPES then PREFERRED_TYPES.indexOf dt
  else (PREFERRED_TYPES.length : Int) + (if dt = "Survey (FNDDS)" then 0 else 1)

/-- `rank_key` (main.py:326-335): the ascending sort key
`(type_rank, -nutrient_count, -score)`; `float(it.get("score") or 0.0)`
makes a missing score `0.0`. -/
def rankKey (it : FoodCandidate) : Int × Int × ℚ :=
  (typeRank (it.dataType.getD ""), -(it.foodNutrientsLen : Int), -(it.score.getD 0))

/-- Lexicographic `≤` on the sort key, as Python compares tuples. -/
def keyLE (x y : Int × Int × ℚ) : Bool :=
  decide (x.1 < y.1 ∨ (x.1 = y.1 ∧ (x.2.1 < y.2.1 ∨ (x.2.1 = y.2.1 ∧ x.2.2 ≤ y.2.2))))

/-- Stable insertion: `a` is placed before the first element not strictly
below it, so an element inserted later never overtakes an equal-key element
inserted earlier (Python's `sorted` is stable). -/
def stInsert (le : α → α → Bool) (a : α) : List α → List α
  | [] => [a]
  | b :: l => if le b a && !(le a b) then b :: stInsert le a l else a :: b :: l

/-- Stable sort by a Boolean `≤`, the embedding of Python's stable `sorted`. -/
def stSort (le : α → α → Bool) : List α → List α
  | [] => []
  | a :: l => stInsert le a (stSort le l)

/-- `foods_sorted = sorted(foods, key=rank_key)` (main.py:337). -/
def rankSort (l : List FoodCandidate) : List FoodCandidate :=
  stSort (fun a b => keyLE (rankKey a) (rankKey b)) l

/-- At least one of the four slots is present
(`any(n.get(k) is not None for k in ...)`, main.py:352). -/
def hasAnyMacro (n : NutrientRecord) : Bool :=
  n.kcal.isSome || n.protein_g.isSome || n.fat_g.isSome || n.carbs_g.isSome

/-- The candidate-probing loop of `macros` (main.py:342-354). `details` maps
an FDC id to the detail body that `fetch_json` would return for it (fetch
failures abort the whole request and are outside this model). A candidate
with a falsy `fdcId` (`None` or `0`) is skipped (`if not fdc_id: continue`);
`none` models the request aborting because normalization raised. -/
def probeLoop (details : Int → List (String × Json)) :
    List FoodCandidate → Option (Option (FoodCandidate × List (String × Json)))
  | [] => some none
  | c :: rest =>
    match c.fdcId with
    | none => probeLoop details rest
    | some i =>
      if i = 0 then probeLoop details rest
      else
        match mergeNutrientSources (details i) with
        | none => none
        | some n =>
          if hasAnyMacro n then some (some (c, details i))
          else probeLoop details rest

/-- Candidate selection of `macros` (main.py:339-363): probe in sorted order;
if no probe accepts, refetch the detail of `foods_sorted[0]` and use it.
The outer `none` models the request failing (normalization raised, the list
was empty — excluded earlier by the 404 guard — or the first candidate has
no usable id so the refetch URL is malformed and the upstream call fails). -/
def macrosChoose (details : Int → List (String × Json))
    (foodsSorted : List FoodCandidate) : Option (FoodCandidate × List (String × Json)) :=
  match probeLoop details foodsSorted with
  | none => none
  | some (some cd) => some cd
  | some none =>
    match foodsSorted with
    | [] => none
    | c0 :: _ =>
      match c0.fdcId with
      | some i => some (c0, details i)
      | none => none

/-- The upstream's behaviour on one attempt of `fetch_json`: either one of
the three caught transient transport exceptions (`httpx.ConnectError`,
`httpx.ReadTimeout`, `httpx.RemoteProtocolError` — any other exception
propagates and is outside the retry loop), or an HTTP response. -/
inductive NetResp where
  | netErr
  | ok (status : Nat) (body : Json)

/-- The outcome of `fetch_json` (main.py:81-128). `clientError s` is the
immediate `HTTPException(s)` raised via `raise_for_status` for a non-2xx,
non-5xx response; `upstream5xx s` is the stored `HTTPException(502,
"USDA 5xx (s)")` re-raised after the budget is exhausted on 5xx responses;
`netUnreachable` is the 503 after exhausting on transport errors;
`upstreamUnavailable` is the final 503 catch-all (an empty budget). -/
inductive FetchOutcome where
  | success (body : Json)
  | clientError (status : Nat)
  | upstream5xx (lastStatus : Nat)
  | netUnreachable
  | upstreamUnavailable

/-- The `last_err` variable of `fetch_json` across iterations. -/
inductive LastErr where
  | noErr
  | net
  | http5xx (status : Nat)
  deriving DecidableEq

/-- Translation of `last_err` into the post-loop raise (main.py:121-128). -/
def finalErr : LastErr → FetchOutcome
  | .noErr => .upstreamUnavailable
  | .net => .netUnreachable
  | .http5xx s => .upstream5xx s

/-- A response retried by the loop: a caught transport error or a 5xx. -/
def retryable : NetResp → Bool
  | .netErr => true
  | .ok status _ => 500 ≤ status && status < 600

/-- The retry loop of `fetch_json` (main.py:95-119): `attempt` is the loop
index, `remaining` the iterations left, `resp attempt` the upstream's
behaviour on that attempt. Returns the outcome and the list of back-off
sleeps performed (`backoff_base * 2 ** attempt`, slept after every failed
attempt, including the last). -/
def fetchGo (resp : Nat → NetResp) (base : ℚ) :
    Nat → Nat → LastErr → FetchOutcome × List ℚ
  | _, 0, lastErr => (finalErr lastErr, [])
  | attempt, remaining + 1, _ =>
    match resp attempt with
    | .netErr =>
        let rest := fetchGo resp base (attempt + 1) remaining .net
        (rest.1, base * 2 ^ attempt :: rest.2)
    | .ok status body =>
        if 500 ≤ status ∧ status < 600 then
          let rest := fetchGo resp base (attempt + 1) remaining (.http5xx status)
          (rest.1, base * 2 ^ attempt :: rest.2)
        else if 200 ≤ status ∧ status < 300 then
          (.success body, [])
        else
          (.clientError status, [])

/-- `fetch_json` (main.py:81-128) with its credential-independent parameters:
the upstream behaviour per attempt, the attempt budget (`max_retries`,
default 4) and `backoff_base` (default 0.35). -/
def fetchJson (resp : Nat → NetResp) (maxRetries : Nat) (base : ℚ) :
    FetchOutcome × List ℚ :=
  fetchGo resp base 0 maxRetries .noErr

/-- The simple endpoint's response model `NutritionResponse`
(main.py:56-61): four optional floats and a source tag. -/
structure NutritionResponse where
  calories : Option ℚ
  protein : Option ℚ
  fat : Option ℚ
  carbs : Option ℚ
  source : String
  deriving DecidableEq, Repr

/-- `FALLBACK_MAP` (main.py:65-77). -/
def FALLBACK_MAP : List (String × (ℚ × ℚ × ℚ × ℚ)) :=
  [("banana", (105, 1, 0, 27)), ("apple", (95, 0, 0, 25)), ("orange", (62, 1, 0, 15)),
   ("egg", (78, 6, 5, 1)), ("rice", (206, 4, 0, 45)), ("bread", (80, 3, 1, 15)),
   ("yogurt", (149, 8, 8, 11)), ("chicken", (231, 43, 5, 0)), ("beef", (250, 26, 15, 0)),
   ("milk", (122, 8, 5, 12)), ("pizza", (285, 12, 10, 36))]

/-- The CalorieNinjas upstream's behaviour for one simple-flow resolution:
either any exception raised while requesting/decoding (all swallowed by the
`except Exception` at main.py:429), or an HTTP response. -/
inductive CNBehavior where
  | raise
  | resp (status : Nat) (body : Json)

/-- The structured provider's behaviour for the simple flow's single
`fetch_json` search call: either raising (any `fetch_json` failure — all
swallowed by the `except Exception` at main.py:474), or a decoded body. -/
inductive FdcBehavior where
  | raise
  | body (j : Json)

/-- Pydantic field validation for `Optional[float]` when the CalorieNinjas
branch builds `NutritionResponse` from raw item values (main.py:422-428):
`none` models a `ValidationError` (raised inside the `try`, so it advances
the chain); `some none` is an absent field; numeric strings coerce, and
booleans, lists and dicts are rejected. -/
def pydFloatField (ikvs : List (String × Json)) (key : String) : Option (Option ℚ) :=
  match pyGet ikvs key with
  | .jnull => some none
  | .jint n => some (some (n : ℚ))
  | .jfloat q => some (some q)
  | .jstr s => (pyParseFloat s).map some
  | _ => none

/-- The CalorieNinjas step of `get_nutrition` (main.py:410-430), given the
key is configured. `none` means the step completes without returning and the
chain advances (non-200 status, malformed body, empty items, or a swallowed
exception). -/
def cnStep (cn : CNBehavior) : Option NutritionResponse :=
  match cn with
  | .raise => none
  | .resp status body =>
    if status = 200 then
      match body with
      | .jobj kvs =>
        let items := (jGet kvs "items").getD (.jarr [])
        if pyTruthy items then
          match items with
          | .jarr (first :: _) =>
            match first with
            | .jobj ikvs =>
              match pydFloatField ikvs "calories", pydFloatField ikvs "protein_g",
                    pydFloatField ikvs "fat_total_g",
                    pydFloatField ikvs "carbohydrates_total_g" with
              | some c, some p, some f, some cb => some ⟨c, p, f, cb, "calorieninjas"⟩
              | _, _, _, _ => none
            | _ => none
          | _ => none
        else none
      | _ => none
    else none

/-- `find_nutrient` (main.py:451-459): scan the entry list for the first
entry whose `nutrientNumber` equals the code string; the outer `none` models
the loop raising on a non-dict entry (swallowed further out). -/
def findNutrient : List Json → String → Option (Option ℚ)
  | [], _ => some none
  | n :: rest, code =>
    match n with
    | .jobj nkvs =>
      if jsonEqStr (pyGet nkvs "nutrientNumber") code then
        some (pyFloat (pyGet nkvs "value"))
      else findNutrient rest code
    | _ => none

/-- The field-extraction part of the simple FDC step (main.py:446-464):
from the search body to the four code-looked-up values. `none` models an
exception anywhere in the branch (swallowed into an advance), and
`some none` means the branch falls through (no foods). -/
def fdcSimpleExtract (j : Json) : Option (Option (Option ℚ × Option ℚ × Option ℚ × Option ℚ)) :=
  match j with
  | .jobj kvs =>
    let foods := (jGet kvs "foods").getD (.jarr [])
    if pyTruthy foods then
      match foods with
      | .jarr (food :: _) =>
        match food with
        | .jobj fkvs =>
          match pyOrJ (pyGet fkvs "foodNutrients") (.jarr []) with
          | .jarr ns =>
            match findNutrient ns "208", findNutrient ns "203",
                  findNutrient ns "204", findNutrient ns "205" with
            | some cal, some prot, some fat, some carb => some (some (cal, prot, fat, carb))
            | _, _, _, _ => none
          | _ => none
        | _ => none
      | _ => none
    else some none
  | _ => none

/-- Python truthiness of an optional float (`None` and `0.0` falsy). -/
def truthyQ (v : Option ℚ) : Bool :=
  match v with
  | some q => q ≠ 0
  | none => false

/-- The USDA FDC step of `get_nutrition` (main.py:433-475), given the key is
configured. The guard is `any([calories, protein, fat, carbs])` — Python
truthiness, so a record whose fields are all `None` **or zero** advances
the chain. -/
def fdcStep (fdc : FdcBehavior) : Option NutritionResponse :=
  match fdc with
  | .raise => none
  | .body j =>
    match fdcSimpleExtract j with
    | none => none
    | some none => none
    | some (some (cal, prot, fat, carb)) =>
      if truthyQ cal || truthyQ prot || truthyQ fat || truthyQ carb then
        some ⟨cal, prot, fat, carb, "fdc"⟩
      else none

/-- ASCII lower-casing of one character (`str.lower` restricted to ASCII,
which covers every key of `FALLBACK_MAP`). -/
def lowerChar (c : Char) : Char :=
  if c.toNat ≥ 65 ∧ c.toNat ≤ 90 then Char.ofNat (c.toNat + 32) else c

/-- Whitespace stripped by `str.strip`. -/
def isSpaceChar (c : Char) : Bool := c = ' ' || c = '\t' || c = '\n' || c = '\r'

/-- `food_name.lower().strip()` (main.py:405). -/
def pyLowerStrip (s : String) : String :=
  ⟨((s.data.map lowerChar).dropWhile isSpaceChar).reverse.dropWhile isSpaceChar |>.reverse⟩

/-- Result of one simple-flow resolution: the 400 client error for an empty
query, or a `NutritionResponse`. -/
inductive SimpleResult where
  | badRequest
  | ok (r : NutritionResponse)
  deriving DecidableEq, Repr

/-- `get_nutrition` (main.py:398-489): normalize the query, reject empty,
then CalorieNinjas (if configured), USDA FDC (if configured), the static
fallback map, and finally the `"none"` result. -/
def getNutrition (cnKey fdcKey : Bool) (cn : CNBehavior) (fdc : FdcBehavior)
    (foodName : String) : SimpleResult :=
  let query := pyLowerStrip foodName
  if query = "" then .badRequest
  else
    match (if cnKey then cnStep cn else none) with
    | some r => .ok r
    | none =>
      match (if fdcKey then fdcStep fdc else none) with
      | some r => .ok r
      | none =>
        match jGetFB query with
        | some (c, p, f, cb) => .ok ⟨some c, some p, some f, some cb, "fallback"⟩
        | none => .ok ⟨none, none, none, none, "none"⟩
where
  /-- `query in FALLBACK_MAP` / `FALLBACK_MAP[query]` (main.py:478-486). -/
  jGetFB (q : String) : Option (ℚ × ℚ × ℚ × ℚ) :=
    FALLBACK_MAP.foldl (fun acc p => if p.1 = q then some p.2 else acc) none

/-- The amended slot-resolution rule (spec-side, for comparison with the
code): label value when present; otherwise a **nonzero** id-keyed measured
value; otherwise the code-keyed measured value. -/
def slotRule (label idVal codeVal : Option ℚ) : Option ℚ :=
  match label with
  | some v => some v
  | none =>
    match idVal with
    | some q => if q ≠ 0 then some q else codeVal
    | none => codeVal

-- ---------------------------------------------------------------------
-- Concrete inputs used by counterexamples and witnesses
-- ---------------------------------------------------------------------

/-- A detail whose measured set has protein keyed by canonical id 1003 with
value `0` and by canonical code `"203"` with value `5`. -/
def idZeroDetail : List (String × Json) :=
  [("foodNutrients", .jarr
    [.jobj [("nutrient", .jobj [("id", .jint 1003)]), ("amount", .jfloat 0)],
     .jobj [("nutrient", .jobj [("number", .jstr "203")]), ("amount", .jfloat 5)]])]

/-- The spec's label-preference example: label kcal 200 and measured kcal
210 (keyed by id 1008). -/
def labelPreferredDetail : List (String × Json) :=
  [("labelNutrients", .jobj [("calories", .jobj [("value", .jfloat 200)])]),
   ("foodNutrients", .jarr
     [.jobj [("nutrient", .jobj [("id", .jint 1008)]), ("amount", .jfloat 210)]])]

/-- The measured dictionaries `labelPreferredDetail` produces. -/
def labelPreferredMaps : (Int → Option ℚ) × (String → Option ℚ) :=
  (fun j => if j = (1008 : Int) then some (210 : ℚ) else none, fun _ => none)

/-- The spec's derived-kcal example: protein 10, fat 5, carbs 20, no kcal. -/
def derivedKcalDetail : List (String × Json) :=
  [("foodNutrients", .jarr
    [.jobj [("nutrient", .jobj [("id", .jint 1003)]), ("amount", .jfloat 10)],
     .jobj [("nutrient", .jobj [("id", .jint 1004)]), ("amount", .jfloat 5)],
     .jobj [("nutrient", .jobj [("id", .jint 1005)]), ("amount", .jfloat 20)]])]

/-- A detail whose `labelNutrients` is a truthy non-dict: `ln.get(...)`
raises `AttributeError`, uncaught. -/
def raisingDetail : List (String × Json) := [("labelNutrients", .jstr "x")]

/-- A measured-nutrient entry whose processing cannot raise: the entry is a
dict and its `nutrient` block (after the falsy-default `or {}`) is a dict. -/
def entryOK : Json → Bool
  | .jobj nkvs =>
    match pyOrJ (pyGet nkvs "nutrient") (.jobj []) with
    | .jobj _ => true
    | _ => false
  | _ => false

/-- A detail on which normalization is exception-free: the `labelNutrients`
block (after the falsy-default) is a dict, and `foodNutrients` (after the
falsy-default) is a list of exception-free entries. -/
def detailOK (detail : List (String × Json)) : Bool :=
  (match pyOrJ (pyGet detail "labelNutrients") (.jobj []) with
   | .jobj _ => true
   | _ => false) &&
  (match pyOrJ (pyGet detail "foodNutrients") (.jarr []) with
   | .jarr xs => xs.all entryOK
   | _ => false)

/-- The `amount` field of a measured-nutrient entry. -/
def entryAmount : Json → Json
  | .jobj nkvs => pyGet nkvs "amount"
  | _ => .jnull

/-- The `nutrient["id"]` field of a measured-nutrient entry. -/
def entryId : Json → Json
  | .jobj nkvs =>
    match pyOrJ (pyGet nkvs "nutrient") (.jobj []) with
    | .jobj nutkvs => pyGet nutkvs "id"
    | _ => .jnull
  | _ => .jnull

/-- Whether a value is a dict. -/
def isJObj : Json → Bool
  | .jobj _ => true
  | _ => false

/-- An entry whose `nutrient["id"]` is a non-integer (`"x"`) but whose
`nutrient["number"]` is the canonical protein code with amount 7. -/
def nonIntIdDetail : List (String × Json) :=
  [("foodNutrients", .jarr
    [.jobj [("nutrient", .jobj [("id", .jstr "x"), ("number", .jstr "203")]),
            ("amount", .jfloat 7)]])]

/-- Three candidates with equal nutrient counts and scores, categories
Branded / Foundation / SR Legacy. -/
def brandedCand : FoodCandidate := ⟨some 1, some "Branded", 3, some 1⟩

/-- See `brandedCand`. -/
def foundationCand : FoodCandidate := ⟨some 2, some "Foundation", 3, some 1⟩

/-- See `brandedCand`. -/
def srLegacyCand : FoodCandidate := ⟨some 3, some "SR Legacy", 3, some 1⟩

/-- The probing loop's acceptance predicate, as seen from outside: the
candidate has an id and its fetched detail normalizes to a record with at
least one present macro slot. -/
def probeAccepts (details : Int → List (String × Json)) (c : FoodCandidate) : Bool :=
  match c.fdcId with
  | some i =>
    match mergeNutrientSources (details i) with
    | some n => hasAnyMacro n
    | none => false
  | none => false

/-- A candidate's id, defaulting to 0. -/
def candId (c : FoodCandidate) : Int := c.fdcId.getD 0

/-- A single well-formed candidate used by the probing witness. -/
def probeCand : FoodCandidate := ⟨some 5, some "Foundation", 1, some 1⟩

/-- A CalorieNinjas 200-response whose single item is an empty dict: every
macro field of the first item is absent. -/
def cnEmptyItemResp : CNBehavior :=
  .resp 200 (.jobj [("items", .jarr [.jobj []])])

/-- The all-absent result the CalorieNinjas step returns for
`cnEmptyItemResp`. -/
def cnAllAbsent : NutritionResponse := ⟨none, none, none, none, "calorieninjas"⟩

/-- An FDC search body whose single food has Energy (code "208") measured
as 0 and no other macro: a record with a present-but-zero field. -/
def fdcZeroBody : Json :=
  .jobj [("foods", .jarr [.jobj [("foodNutrients", .jarr
    [.jobj [("nutrientNumber", .jstr "208"), ("value", .jfloat 0)]])]])]

/-- An FDC search body whose single food has Energy 100. -/
def fdcEnergyBody : Json :=
  .jobj [("foods", .jarr [.jobj [("foodNutrients", .jarr
    [.jobj [("nutrientNumber", .jstr "208"), ("value", .jfloat 100)]])]])]

/-- The `"banana"` static-fallback response. -/
def fallbackBanana : NutritionResponse := ⟨some 105, some 1, some 0, some 27, "fallback"⟩

/-- The terminal `"none"` response. -/
def noneResponse : NutritionResponse := ⟨none, none, none, none, "none"⟩

-- ---------------------------------------------------------------------
-- C8 / C9 — the unit scaler
-- ---------------------------------------------------------------------

/-- C8: `per100g` and `scaledTo` return the all-absent record when the
basis is absent or ≤ 0; for a positive basis each present field is
multiplied by `100/basis` (resp. `grams/basis`) and rounded to 3 decimals,
and each absent field stays absent. -/
theorem scaler_basis_and_pointwise :
    (∀ (n : NutrientRecord) (g : ℚ),
      per100g n none = emptyRecord ∧ scaled n g none = emptyRecord) ∧
    (∀ (n : NutrientRecord) (b g : ℚ), b ≤ 0 →
      per100g n (some b) = emptyRecord ∧ scaled n g (some b) = emptyRecord) ∧
    (∀ (n : NutrientRecord) (b g : ℚ), 0 < b →
      (per100g n (some b)).kcal = n.kcal.map (fun v => round3 (v * (100 / b))) ∧
      (per100g n (some b)).protein_g = n.protein_g.map (fun v => round3 (v * (100 / b))) ∧
      (per100g n (some b)).fat_g = n.fat_g.map (fun v => round3 (v * (100 / b))) ∧
      (per100g n (some b)).carbs_g = n.carbs_g.map (fun v => round3 (v * (100 / b))) ∧
      (scaled n g (some b)).kcal = n.kcal.map (fun v => round3 (v * (g / b))) ∧
      (scaled n g (some b)).protein_g = n.protein_g.map (fun v => round3 (v * (g / b))) ∧
      (scaled n g (some b)).fat_g = n.fat_g.map (fun v => round3 (v * (g / b))) ∧
      (scaled n g (some b)).carbs_g = n.carbs_g.map (fun v => round3 (v * (g / b)))) := by
  refine ⟨fun n g => ⟨rfl, rfl⟩, fun n b g hb => ?_, fun n b g hb => ?_⟩
  · simp [per100g, scaled, hb]
  · simp [per100g, scaled, scaleRecord, not_le.mpr hb]

/-- Witness for C8 at a concrete record and basis. -/
theorem scaler_basis_and_pointwise_witness :
    per100g ⟨some 1, none, none, some 1⟩ (some (-2)) = emptyRecord ∧
    (per100g ⟨some 1, none, none, some 1⟩ (some 50)).protein_g = none :=
  ⟨(scaler_basis_and_pointwise.2.1 ⟨some 1, none, none, some 1⟩ (-2) 7 (by norm_num)).1,
   by
    have h := (scaler_basis_and_pointwise.2.2 ⟨some 1, none, none, some 1⟩ 50 7
      (by norm_num)).2.1
    simpa using h⟩

/-- C9: scaling a record to its own basis is the identity up to rounding
every present field to three decimals. -/
theorem scaled_roundtrip (n : NutrientRecord) (b : ℚ) (hb : 0 < b) :
    scaled n b (some b) = roundRecord n := by
  have hb0 : b ≠ 0 := ne_of_gt hb
  simp [scaled, not_le.mpr hb, scaleRecord, roundRecord, div_self hb0]

/-- Witness for C9 at a concrete record and basis. -/
theorem scaled_roundtrip_witness :
    scaled ⟨some 2, none, some (1/3), none⟩ 3 (some 3) =
      roundRecord ⟨some 2, none, some (1/3), none⟩ :=
  scaled_roundtrip ⟨some 2, none, some (1/3), none⟩ 3 (by norm_num)

-- ---------------------------------------------------------------------
-- C3 — the merge rule
-- ---------------------------------------------------------------------

/-- C3 counterexample: the claim says an id-keyed measured value takes
precedence over a code-keyed one whenever both exist, but the code combines
them with Python `or`, so the id-keyed value `0` for protein (id 1003) is
discarded in favour of the code-keyed value `5` (code `"203"`): the merged
protein slot is `5`, not `0`. -/
theorem merge_id_precedence_cex :
    (measuredMaps idZeroDetail).map (fun st => (st.1 1003, st.2 "203")) =
      some (some 0, some 5) ∧
    extractFromFoodNutrients idZeroDetail = some ⟨none, some 5, none, none⟩ ∧
    (mergeNutrientSources idZeroDetail).map NutrientRecord.protein_g = some (some 5) :=
  ⟨by decide, by decide, rfl⟩

/-- C3 (amended): slot-wise, the merged record prefers the label value;
otherwise a **nonzero** id-keyed measured value; otherwise the code-keyed
measured value (a zero id-keyed value is discarded by Python `or`). -/
theorem merge_slotwise_amended (detail : List (String × Json)) (a : NutrientRecord)
    (st : (Int → Option ℚ) × (String → Option ℚ))
    (ha : extractFromLabelNutrients detail = some a)
    (hm : measuredMaps detail = some st) :
    extractFromFoodNutrients detail = some (mkMeasuredRecord st) ∧
    mergeNutrientSources detail = some (deriveKcal (mergeSlots a (mkMeasuredRecord st))) ∧
    (mergeSlots a (mkMeasuredRecord st)).kcal = slotRule a.kcal (st.1 1008) (st.2 "208") ∧
    (mergeSlots a (mkMeasuredRecord st)).protein_g =
      slotRule a.protein_g (st.1 1003) (st.2 "203") ∧
    (mergeSlots a (mkMeasuredRecord st)).fat_g = slotRule a.fat_g (st.1 1004) (st.2 "204") ∧
    (mergeSlots a (mkMeasuredRecord st)).carbs_g =
      slotRule a.carbs_g (st.1 1005) (st.2 "205") := by
  have key : ∀ (x y z : Option ℚ), noneElse x (pyOrQ y z) = slotRule x y z := by
    intro x y z
    cases x <;> cases y <;> rfl
  have hfood : extractFromFoodNutrients detail = some (mkMeasuredRecord st) := by
    rw [extractFromFoodNutrients, hm]; rfl
  refine ⟨hfood, ?_, ?_, ?_, ?_, ?_⟩
  · unfold mergeNutrientSources
    rw [ha, hfood]
    rfl
  · exact key a.kcal _ _
  · exact key a.protein_g _ _
  · exact key a.fat_g _ _
  · exact key a.carbs_g _ _

/-- Witness for C3 at the spec's label-preference example: label kcal 200
beats measured kcal 210, so the merged kcal is 200. -/
theorem merge_slotwise_amended_witness :
    (mergeNutrientSources labelPreferredDetail).map NutrientRecord.kcal = some (some 200) := by
  have h := merge_slotwise_amended labelPreferredDetail ⟨some 200, none, none, none⟩
    labelPreferredMaps (by decide) rfl
  rw [h.2.1]
  decide

-- ---------------------------------------------------------------------
-- C4 — the derived-kcal rule
-- ---------------------------------------------------------------------

/-- C4: merging applies the derived-kcal step to the slot-wise merge, and
that step synthesizes `kcal = round3(4*protein + 4*carbs + 9*fat)` (absent
macros as 0) exactly when the merged kcal is absent and some macro is
present; when kcal is present, or all three macros are absent, the record
is unchanged. -/
theorem derived_kcal_rule :
    (∀ detail a b, extractFromLabelNutrients detail = some a →
      extractFromFoodNutrients detail = some b →
      mergeNutrientSources detail = some (deriveKcal (mergeSlots a b))) ∧
    (∀ m : NutrientRecord, m.kcal = none →
      (m.protein_g ≠ none ∨ m.fat_g ≠ none ∨ m.carbs_g ≠ none) →
      deriveKcal m = { m with kcal := some (round3
        (4 * m.protein_g.getD 0 + 4 * m.carbs_g.getD 0 + 9 * m.fat_g.getD 0)) }) ∧
    (∀ m : NutrientRecord, m.kcal ≠ none → deriveKcal m = m) ∧
    (∀ m : NutrientRecord, m.protein_g = none → m.fat_g = none → m.carbs_g = none →
      deriveKcal m = m) := by
  refine ⟨fun detail a b ha hb => ?_, fun m h1 h2 => ?_, fun m h => ?_, fun m h1 h2 h3 => ?_⟩
  · unfold mergeNutrientSources
    rw [ha, hb]
    rfl
  · obtain ⟨k, p, f, c⟩ := m
    simp only at h1
    subst h1
    rcases p with _ | p <;> rcases f with _ | f <;> rcases c with _ | c <;>
      simp_all [deriveKcal]
  · obtain ⟨k, p, f, c⟩ := m
    rcases k with _ | k <;> simp_all [deriveKcal]
  · obtain ⟨k, p, f, c⟩ := m
    simp only at h1 h2 h3
    subst h1; subst h2; subst h3
    rcases k with _ | k <;> simp [deriveKcal]

/-- Witness for C4 at the spec's example: protein 10, fat 5, carbs 20 and
no kcal anywhere give merged kcal `4*10 + 4*20 + 9*5 = 165`. -/
theorem derived_kcal_rule_witness :
    mergeNutrientSources derivedKcalDetail = some ⟨some 165, some 10, some 5, some 20⟩ := by
  have h := derived_kcal_rule.1 derivedKcalDetail ⟨none, none, none, none⟩
    ⟨none, some 10, some 5, some 20⟩ (by decide) (by decide)
  rw [h]
  have h2 := derived_kcal_rule.2.1
    (mergeSlots ⟨none, none, none, none⟩ ⟨none, some 10, some 5, some 20⟩)
    (by decide) (by right; left; decide)
  rw [h2]
  norm_num [mergeSlots, noneElse, round3]

-- ---------------------------------------------------------------------
-- C10 — totality of normalization
-- ---------------------------------------------------------------------

/-- A non-integer id inserts nothing into the id-keyed dictionary. -/
theorem idInsert_of_bad_id (st : (Int → Option ℚ) × (String → Option ℚ))
    (nid : Json) (amt : ℚ) (h : pyInt nid = none) : idInsert st nid amt = st := by
  rcases nid with _ | b | i | q | s | xs | kvs <;> simp_all [idInsert, pyInt]

/-- The number insertion never touches the id-keyed dictionary. -/
theorem numInsert_fst (st : (Int → Option ℚ) × (String → Option ℚ))
    (number : Json) (amt : ℚ) : (numInsert st number amt).1 = st.1 := by
  unfold numInsert
  split <;> rfl

/-- Processing an exception-free entry always succeeds. -/
theorem foodNutrientStep_isSome (st : (Int → Option ℚ) × (String → Option ℚ))
    (n : Json) (h : entryOK n = true) : (foodNutrientStep st n).isSome = true := by
  rcases n with _ | b | i | q | s | xs | nkvs <;> simp [entryOK] at h
  unfold foodNutrientStep
  rcases hnu : pyOrJ (pyGet nkvs "nutrient") (.jobj []) with
    _ | b | i | q | s | xs | nutkvs <;> rw [hnu] at h <;> simp_all
  rcases hamt : pyGet nkvs "amount" with _ | b | i | q | s | xs | akvs <;> simp <;>
    rcases hf : pyFloat _ with _ | amt <;> simp [hf]

/-- A list of exception-free entries folds to defined measured maps. -/
theorem foldlM_entries_isSome :
    ∀ (xs : List Json) (st : (Int → Option ℚ) × (String → Option ℚ)),
      (∀ x ∈ xs, entryOK x = true) → (xs.foldlM foodNutrientStep st).isSome = true := by
  intro xs
  induction xs with
  | nil => intro st _; rfl
  | cons n t ih =>
    intro st h
    obtain ⟨st', hst'⟩ :=
      Option.isSome_iff_exists.mp (foodNutrientStep_isSome st n (h n (List.mem_cons_self n t)))
    rw [List.foldlM_cons, hst']
    exact ih st' fun x hx => h x (List.mem_cons_of_mem n hx)

/-- C10 counterexample. First conjunct: normalization is **not** total —
on a detail whose `labelNutrients` is the truthy non-dict `"x"`,
`ln.get("calories")` raises an uncaught `AttributeError` (modelled as
`none`). Second conjunct: an entry whose id is the non-integer `"x"` is
**not** skipped — its code string `"203"` still contributes, so protein is
7 rather than absent. -/
theorem normalization_totality_cex :
    mergeNutrientSources raisingDetail = none ∧
    extractFromFoodNutrients nonIntIdDetail = some ⟨none, some 7, none, none⟩ :=
  ⟨by decide, by decide⟩

/-- C10 (amended): on details whose `labelNutrients` block (after the
falsy-default) is a dict and whose `foodNutrients` (after the falsy-default)
is a list of dicts with dict-or-falsy nutrient blocks, extraction and
merging always return a record; an entry whose amount is missing or
non-convertible contributes nothing; an entry with a non-integer id makes no
id-keyed contribution (though its code string still contributes, so only the
id insertion is skipped, not the entry); and a label entry that is not a
dict, or whose value does not convert, is absent. -/
theorem normalization_totality_amended :
    (∀ detail, detailOK detail = true → (mergeNutrientSources detail).isSome = true) ∧
    (∀ st n, entryOK n = true → pyFloat (entryAmount n) = none →
      foodNutrientStep st n = some st) ∧
    (∀ (st : (Int → Option ℚ) × (String → Option ℚ)) (nid number : Json) (amt : ℚ),
      pyInt nid = none → (numInsert (idInsert st nid amt) number amt).1 = st.1) ∧
    (∀ kvs key, isJObj (pyGet kvs key) = false → labelPick kvs key = none) ∧
    (∀ kvs key vkvs, pyGet kvs key = .jobj vkvs →
      pyFloat (pyGet vkvs "value") = none → labelPick kvs key = none) := by
  refine ⟨fun detail h => ?_, fun st n h hf => ?_, fun st nid number amt hid => ?_,
    fun kvs key h => ?_, fun kvs key vkvs h hv => ?_⟩
  · rw [detailOK, Bool.and_eq_true] at h
    obtain ⟨h1, h2⟩ := h
    unfold mergeNutrientSources
    rw [extractFromLabelNutrients]
    rcases hln : pyOrJ (pyGet detail "labelNutrients") (.jobj []) with
      _ | b | i | q | s | xs | kvs <;> rw [hln] at h1 <;> simp_all
    have hms : (measuredMaps detail).isSome = true := by
      rw [measuredMaps]
      rcases hfn : pyOrJ (pyGet detail "foodNutrients") (.jarr []) with
        _ | b | i | q | s | xs | kvs' <;> rw [hfn] at h2 <;> simp_all
      exact foldlM_entries_isSome xs _ h2
    obtain ⟨st, hst⟩ := Option.isSome_iff_exists.mp hms
    rw [extractFromFoodNutrients, hst]
    rfl
  · rcases n with _ | b | i | q | s | xs | nkvs <;> simp [entryOK] at h
    simp only [entryAmount] at hf
    unfold foodNutrientStep
    rcases hnu : pyOrJ (pyGet nkvs "nutrient") (.jobj []) with
      _ | b | i | q | s | xs | nutkvs <;> rw [hnu] at h <;> simp_all
    rcases hamt : pyGet nkvs "amount" with _ | b | i | q | s | xs | akvs <;>
      rw [hamt] at hf <;> simp [hf]
  · rw [numInsert_fst, idInsert_of_bad_id st nid amt hid]
  · simp only [labelPick]
    rcases hg : pyGet kvs key with _ | b | i | q | s | xs | vkvs <;>
      rw [hg] at h <;> simp_all [isJObj]
  · simp only [labelPick]
    rw [h]
    rcases hg : pyGet vkvs "value" with _ | b | i | q | s | xs | wkvs <;>
      rw [hg] at hv <;> simp_all

/-- Witness for C10 on a well-formed detail. -/
theorem normalization_totality_amended_witness :
    (mergeNutrientSources nonIntIdDetail).isSome = true :=
  normalization_totality_amended.1 nonIntIdDetail (by decide)

-- ---------------------------------------------------------------------
-- C5 — the candidate ranker
-- ---------------------------------------------------------------------

/-- Inserting permutes: the result is the element consed on the list. -/
theorem stInsert_perm (le : α → α → Bool) (a : α) (l : List α) :
    List.Perm (stInsert le a l) (a :: l) := by
  induction l with
  | nil => exact List.Perm.refl _
  | cons b t ih =>
    by_cases h : (le b a && !(le a b)) = true
    · rw [stInsert, if_pos h]
      exact (ih.cons b).trans (List.Perm.swap a b t)
    · rw [stInsert, if_neg h]

/-- Sorting permutes. -/
theorem stSort_perm (le : α → α → Bool) (l : List α) : List.Perm (stSort le l) l := by
  induction l with
  | nil => exact List.Perm.refl _
  | cons a t ih => exact (stInsert_perm le a (stSort le t)).trans (ih.cons a)

/-- Inserting into a `le`-sorted list keeps it sorted, for a total and
transitive `le`. -/
theorem stInsert_sorted (le : α → α → Bool)
    (htot : ∀ a b, (le a b || le b a) = true)
    (htrans : ∀ a b c, le a b = true → le b c = true → le a c = true)
    (a : α) (l : List α) (hs : l.Pairwise (fun x y => le x y = true)) :
    (stInsert le a l).Pairwise (fun x y => le x y = true) := by
  induction l with
  | nil => simp [stInsert]
  | cons b t ih =>
    obtain ⟨hb, ht⟩ := List.pairwise_cons.mp hs
    by_cases h : (le b a && !(le a b)) = true
    · rw [stInsert, if_pos h]
      rw [Bool.and_eq_true] at h
      refine List.pairwise_cons.mpr ⟨?_, ih ht⟩
      intro x hx
      rcases List.mem_cons.mp ((stInsert_perm le a t).mem_iff.mp hx) with hxa | hxt
      · rw [hxa]
        exact h.1
      · exact hb x hxt
    · rw [stInsert, if_neg h]
      have hab : le a b = true := by
        by_contra hab'
        simp only [Bool.not_eq_true] at hab'
        have h' : le b a = true := by
          have := htot a b
          rw [hab'] at this
          simpa using this
        exact h (by simp [h', hab'])
      refine List.pairwise_cons.mpr ⟨?_, hs⟩
      intro x hx
      rcases List.mem_cons.mp hx with hxb | hxt
      · rw [hxb]
        exact hab
      · exact htrans a b x hab (hb x hxt)

/-- Sorting sorts, for a total and transitive `le`. -/
theorem stSort_sorted (le : α → α → Bool)
    (htot : ∀ a b, (le a b || le b a) = true)
    (htrans : ∀ a b c, le a b = true → le b c = true → le a c = true)
    (l : List α) : (stSort le l).Pairwise (fun x y => le x y = true) := by
  induction l with
  | nil => simp [stSort]
  | cons a t ih => exact stInsert_sorted le htot htrans a (stSort le t) ih

/-- `keyLE` is total. -/
theorem keyLE_total (x y : Int × Int × ℚ) : (keyLE x y || keyLE y x) = true := by
  simp only [keyLE, Bool.or_eq_true, decide_eq_true_eq]
  rcases lt_trichotomy x.1 y.1 with h | h | h
  · exact Or.inl (Or.inl h)
  · rcases lt_trichotomy x.2.1 y.2.1 with h2 | h2 | h2
    · exact Or.inl (Or.inr ⟨h, Or.inl h2⟩)
    · rcases le_total x.2.2 y.2.2 with h3 | h3
      · exact Or.inl (Or.inr ⟨h, Or.inr ⟨h2, h3⟩⟩)
      · exact Or.inr (Or.inr ⟨h.symm, Or.inr ⟨h2.symm, h3⟩⟩)
    · exact Or.inr (Or.inr ⟨h.symm, Or.inl h2⟩)
  · exact Or.inr (Or.inl h)

/-- `keyLE` is transitive. -/
theorem keyLE_trans (x y z : Int × Int × ℚ)
    (h1 : keyLE x y = true) (h2 : keyLE y z = true) : keyLE x z = true := by
  simp only [keyLE, decide_eq_true_eq] at h1 h2 ⊢
  rcases h1 with h1 | ⟨h1e, h1r⟩
  · rcases h2 with h2 | ⟨h2e, _⟩
    · exact Or.inl (h1.trans h2)
    · exact Or.inl (h2e ▸ h1)
  · rcases h2 with h2 | ⟨h2e, h2r⟩
    · exact Or.inl (h1e ▸ h2)
    · refine Or.inr ⟨h1e.trans h2e, ?_⟩
      rcases h1r with h1r | ⟨h1re, h1rr⟩
      · rcases h2r with h2r | ⟨h2re, _⟩
        · exact Or.inl (h1r.trans h2r)
        · exact Or.inl (h2re ▸ h1r)
      · rcases h2r with h2r | ⟨h2re, h2rr⟩
        · exact Or.inl (h1re ▸ h2r)
        · exact Or.inr ⟨h1re.trans h2re, h1rr.trans h2rr⟩

/-- C5: the ranker stably sorts ascending by
`(categoryRank, -nutrientFieldCount, -relevanceScore)`; the category ranks
are 0/1/2 for the preferred list, 3 for the extended category
`"Survey (FNDDS)"`, and 4 for anything else; with equal counts and scores,
categories Branded/Foundation/SR Legacy come out Foundation, SR Legacy,
Branded. -/
theorem ranker_sorts_by_key :
    (∀ l : List FoodCandidate, List.Perm (rankSort l) l ∧
      (rankSort l).Pairwise (fun a b => keyLE (rankKey a) (rankKey b) = true)) ∧
    (typeRank "Foundation" = 0 ∧ typeRank "SR Legacy" = 1 ∧ typeRank "Branded" = 2 ∧
      typeRank "Survey (FNDDS)" = 3) ∧
    (∀ s, s ∉ PREFERRED_TYPES → s ≠ "Survey (FNDDS)" → typeRank s = 4) ∧
    rankSort [brandedCand, foundationCand, srLegacyCand] =
      [foundationCand, srLegacyCand, brandedCand] := by
  refine ⟨fun l => ⟨stSort_perm _ l,
      stSort_sorted (fun a b => keyLE (rankKey a) (rankKey b))
        (fun a b => keyLE_total (rankKey a) (rankKey b))
        (fun a b c => keyLE_trans (rankKey a) (rankKey b) (rankKey c)) l⟩,
    ⟨by decide, by decide, by decide, by decide⟩, fun s h1 h2 => ?_, by decide⟩
  unfold typeRank
  rw [if_neg h1, if_neg h2]
  decide

/-- Witness for C5's unknown-category clause at a concrete category. -/
theorem ranker_sorts_by_key_witness : typeRank "Custom" = 4 :=
  ranker_sorts_by_key.2.2.1 "Custom" (by decide) (by decide)

-- ---------------------------------------------------------------------
-- C6 — the probing loop
-- ---------------------------------------------------------------------

/-- The probing loop, on candidates with usable ids and details whose
normalization succeeds, returns the first acceptable candidate with its
detail, or reports that none was accepted. -/
theorem probeLoop_eq (details : Int → List (String × Json)) :
    ∀ l : List FoodCandidate,
      (∀ c ∈ l, ∃ i, c.fdcId = some i ∧ i ≠ 0) →
      (∀ i, (mergeNutrientSources (details i)).isSome = true) →
      probeLoop details l =
        some ((l.find? (probeAccepts details)).map (fun c => (c, details (candId c)))) := by
  intro l
  induction l with
  | nil => intro _ _; rfl
  | cons c t ih =>
    intro hl hmerge
    obtain ⟨i, hci, hi0⟩ := hl c (List.mem_cons_self c t)
    obtain ⟨n, hn⟩ := Option.isSome_iff_exists.mp (hmerge i)
    have hid : candId c = i := by rw [candId, hci]; rfl
    have hacc : probeAccepts details c = hasAnyMacro n := by
      simp only [probeAccepts, hci, hn]
    have hrec := ih (fun c' hc' => hl c' (List.mem_cons_of_mem c hc')) hmerge
    simp only [probeLoop, hci, if_neg hi0, hn]
    cases hmac : hasAnyMacro n with
    | true =>
      simp [List.find?_cons_of_pos _ (hacc.trans hmac), hid, hmac]
    | false =>
      rw [List.find?_cons_of_neg _ (by simp [hacc, hmac])]
      simpa [hmac] using hrec

/-- C6: when every sorted candidate carries a usable (nonzero) id and every
fetched detail normalizes without raising, the detailed flow picks the first
candidate in rank-sorted order whose normalized record has at least one
present macro slot; if none is accepted it falls back to the first candidate
in sorted order with whatever its detail yields, and for a nonempty
candidate list the caller always receives a structured choice, never a
failure. -/
theorem probing_loop_characterization (details : Int → List (String × Json))
    (foods : List FoodCandidate)
    (hids : ∀ c ∈ foods, ∃ i, c.fdcId = some i ∧ i ≠ 0)
    (hmerge : ∀ i, (mergeNutrientSources (details i)).isSome = true) :
    macrosChoose details (rankSort foods) =
      Option.or
        (((rankSort foods).find? (probeAccepts details)).map
          (fun c => (c, details (candId c))))
        ((rankSort foods).head?.map (fun c => (c, details (candId c)))) ∧
    (foods ≠ [] → (macrosChoose details (rankSort foods)).isSome = true) := by
  have hids' : ∀ c ∈ rankSort foods, ∃ i, c.fdcId = some i ∧ i ≠ 0 :=
    fun c hc => hids c ((stSort_perm _ foods).mem_iff.mp hc)
  have hloop := probeLoop_eq details (rankSort foods) hids' hmerge
  have hmain : macrosChoose details (rankSort foods) =
      Option.or
        (((rankSort foods).find? (probeAccepts details)).map
          (fun c => (c, details (candId c))))
        ((rankSort foods).head?.map (fun c => (c, details (candId c)))) := by
    unfold macrosChoose
    rw [hloop]
    cases hf : (rankSort foods).find? (probeAccepts details) with
    | some c => rfl
    | none =>
      cases hrs : rankSort foods with
      | nil => rfl
      | cons c0 t =>
        obtain ⟨i, hci, _⟩ := hids' c0 (by rw [hrs]; exact List.mem_cons_self c0 t)
        have hid : candId c0 = i := by rw [candId, hci]; rfl
        simp [hci, hid]
  refine ⟨hmain, fun hne => ?_⟩
  rw [hmain]
  cases hf : (rankSort foods).find? (probeAccepts details) with
  | some c => rfl
  | none =>
    cases hrs : rankSort foods with
    | nil =>
      have hperm : List.Perm (rankSort foods) foods := stSort_perm _ foods
      rw [hrs] at hperm
      exact absurd hperm.symm.eq_nil hne
    | cons c0 t => rfl

/-- Witness for C6 on a one-candidate list with a well-formed detail. -/
theorem probing_loop_characterization_witness :
    (macrosChoose (fun _ => nonIntIdDetail) (rankSort [probeCand])).isSome = true :=
  (probing_loop_characterization (fun _ => nonIntIdDetail) [probeCand]
    (by
      intro c hc
      rw [List.mem_singleton] at hc
      subst hc
      exact ⟨5, rfl, by decide⟩)
    (fun _ => rfl)).2 (by decide)

-- ---------------------------------------------------------------------
-- C7 — the transport retry policy
-- ---------------------------------------------------------------------

/-- Shifting the attempt index by one inside the back-off sleep list. -/
theorem sleepShift (base : ℚ) (a k : Nat) :
    (List.range (k + 1)).map (fun j => base * 2 ^ (a + j)) =
      base * 2 ^ a :: (List.range k).map (fun j => base * 2 ^ (a + 1 + j)) := by
  rw [List.range_succ_eq_map, List.map_cons, List.map_map, Nat.add_zero]
  refine congrArg (List.cons _) (List.map_congr_left ?_)
  intro j _
  show base * 2 ^ (a + (j + 1)) = base * 2 ^ (a + 1 + j)
  rw [show a + (j + 1) = a + 1 + j from by omega]

/-- The retry loop stops at the first non-retryable response: a 2xx returns
its body, anything else (a 4xx in particular) raises immediately carrying
the status, and exactly one back-off sleep was performed per preceding
retryable response. -/
theorem fetchGo_stop (resp : Nat → NetResp) (base : ℚ) :
    ∀ (k a rem : Nat) (le0 : LastErr) (s : Nat) (body : Json), k < rem →
      (∀ j, j < k → retryable (resp (a + j)) = true) →
      resp (a + k) = .ok s body → ¬(500 ≤ s ∧ s < 600) →
      fetchGo resp base a rem le0 =
        ((if 200 ≤ s ∧ s < 300 then .success body else .clientError s),
         (List.range k).map (fun j => base * 2 ^ (a + j))) := by
  intro k
  induction k with
  | zero =>
    intro a rem le0 s body hk hr hresp h5
    obtain ⟨r, rfl⟩ : ∃ r, rem = r + 1 := ⟨rem - 1, by omega⟩
    rw [Nat.add_zero] at hresp
    simp only [fetchGo, hresp, if_neg h5]
    by_cases h2 : 200 ≤ s ∧ s < 300
    · simp [h2]
    · simp [h2]
  | succ k ihk =>
    intro a rem le0 s body hk hr hresp h5
    obtain ⟨r, rfl⟩ : ∃ r, rem = r + 1 := ⟨rem - 1, by omega⟩
    have hr' : ∀ j, j < k → retryable (resp (a + 1 + j)) = true := by
      intro j hj
      have h := hr (j + 1) (by omega)
      rw [show a + (j + 1) = a + 1 + j from by omega] at h
      exact h
    have hresp' : resp (a + 1 + k) = .ok s body := by
      rw [show a + 1 + k = a + (k + 1) from by omega]
      exact hresp
    have hra : retryable (resp a) = true := by
      have h := hr 0 (by omega)
      rwa [Nat.add_zero] at h
    rw [sleepShift]
    cases hresp0 : resp a with
    | netErr =>
      simp only [fetchGo, hresp0]
      rw [ihk (a + 1) r .net s body (by omega) hr' hresp' h5]
    | ok st b =>
      have h5xx : 500 ≤ st ∧ st < 600 := by
        rw [hresp0, retryable] at hra
        simpa [decide_eq_true_eq] using hra
      simp only [fetchGo, hresp0, if_pos h5xx]
      rw [ihk (a + 1) r (.http5xx st) s body (by omega) hr' hresp' h5]

/-- When every attempt in the budget is retryable, the budget is exhausted
and the stored error from the **last** attempt is surfaced, having slept
once per attempt. -/
theorem fetchGo_exhaust (resp : Nat → NetResp) (base : ℚ) :
    ∀ (rem a : Nat) (le0 : LastErr), 0 < rem →
      (∀ j, j < rem → retryable (resp (a + j)) = true) →
      fetchGo resp base a rem le0 =
        (finalErr (match resp (a + rem - 1) with
          | .netErr => .net
          | .ok s _ => .http5xx s),
         (List.range rem).map (fun j => base * 2 ^ (a + j))) := by
  intro rem
  induction rem with
  | zero => intro a le0 h; omega
  | succ r ihr =>
    intro a le0 _ hr
    have hra : retryable (resp a) = true := by
      have h := hr 0 (by omega)
      rwa [Nat.add_zero] at h
    rw [sleepShift]
    rcases Nat.eq_zero_or_pos r with rfl | hrpos
    · cases hresp0 : resp a with
      | netErr =>
        simp only [fetchGo, hresp0]
        rw [show a + 1 - 1 = a from by omega, hresp0]
        rfl
      | ok st b =>
        have h5xx : 500 ≤ st ∧ st < 600 := by
          rw [hresp0, retryable] at hra
          simpa [decide_eq_true_eq] using hra
        simp only [fetchGo, hresp0, if_pos h5xx]
        rw [show a + 1 - 1 = a from by omega, hresp0]
        rfl
    · have hr' : ∀ j, j < r → retryable (resp (a + 1 + j)) = true := by
        intro j hj
        have h := hr (j + 1) (by omega)
        rw [show a + (j + 1) = a + 1 + j from by omega] at h
        exact h
      have hidx : a + 1 + r - 1 = a + (r + 1) - 1 := by omega
      cases hresp0 : resp a with
      | netErr =>
        simp only [fetchGo, hresp0]
        rw [ihr (a + 1) .net hrpos hr', hidx]
      | ok st b =>
        have h5xx : 500 ≤ st ∧ st < 600 := by
          rw [hresp0, retryable] at hra
          simpa [decide_eq_true_eq] using hra
        simp only [fetchGo, hresp0, if_pos h5xx]
        rw [ihr (a + 1) (.http5xx st) hrpos hr', hidx]

/-- C7: `fetch_json` retries only on transport errors and 5xx, sleeping
`backoff_base * 2^attempt` per retried attempt; any other response stops the
loop at once — a 4xx fails immediately carrying its status; with a budget of
4, three 5xx responses followed by a 200 succeed with three back-offs, while
four 5xx responses exhaust the budget and surface the stored upstream
failure (raised as HTTP 502 naming the last 5xx status). -/
theorem fetch_json_retry_policy :
    (∀ (resp : Nat → NetResp) (maxRetries : Nat) (base : ℚ) (k s : Nat) (body : Json),
      k < maxRetries → (∀ j, j < k → retryable (resp j) = true) →
      resp k = .ok s body → ¬(500 ≤ s ∧ s < 600) →
      fetchJson resp maxRetries base =
        ((if 200 ≤ s ∧ s < 300 then .success body else .clientError s),
         (List.range k).map (fun j => base * 2 ^ j))) ∧
    (∀ (resp : Nat → NetResp) (maxRetries : Nat) (base : ℚ) (s : Nat) (body : Json),
      0 < maxRetries → resp 0 = .ok s body → 400 ≤ s → s < 500 →
      fetchJson resp maxRetries base = (.clientError s, [])) ∧
    (∀ (resp : Nat → NetResp) (maxRetries : Nat) (base : ℚ),
      0 < maxRetries → (∀ j, j < maxRetries → retryable (resp j) = true) →
      fetchJson resp maxRetries base =
        (finalErr (match resp (maxRetries - 1) with
          | .netErr => .net
          | .ok s _ => .http5xx s),
         (List.range maxRetries).map (fun j => base * 2 ^ j))) ∧
    (∀ (base : ℚ) (body : Json),
      fetchJson (fun att => if att < 3 then .ok 503 .jnull else .ok 200 body) 4 base =
        (.success body, [base * 2 ^ 0, base * 2 ^ 1, base * 2 ^ 2])) ∧
    (∀ base : ℚ,
      fetchJson (fun _ => .ok 500 .jnull) 4 base =
        (.upstream5xx 500, [base * 2 ^ 0, base * 2 ^ 1, base * 2 ^ 2, base * 2 ^ 3])) := by
  have hstop : ∀ (resp : Nat → NetResp) (maxRetries : Nat) (base : ℚ) (k s : Nat)
      (body : Json), k < maxRetries → (∀ j, j < k → retryable (resp j) = true) →
      resp k = .ok s body → ¬(500 ≤ s ∧ s < 600) →
      fetchJson resp maxRetries base =
        ((if 200 ≤ s ∧ s < 300 then .success body else .clientError s),
         (List.range k).map (fun j => base * 2 ^ j)) := by
    intro resp maxRetries base k s body hk hr hresp h5
    have h := fetchGo_stop resp base k 0 maxRetries .noErr s body hk
      (fun j hj => by rw [Nat.zero_add]; exact hr j hj)
      (by rw [Nat.zero_add]; exact hresp) h5
    simpa [fetchJson, Nat.zero_add] using h
  have hexh : ∀ (resp : Nat → NetResp) (maxRetries : Nat) (base : ℚ),
      0 < maxRetries → (∀ j, j < maxRetries → retryable (resp j) = true) →
      fetchJson resp maxRetries base =
        (finalErr (match resp (maxRetries - 1) with
          | .netErr => .net
          | .ok s _ => .http5xx s),
         (List.range maxRetries).map (fun j => base * 2 ^ j)) := by
    intro resp maxRetries base hpos hr
    have h := fetchGo_exhaust resp base maxRetries 0 .noErr hpos
      (fun j hj => by rw [Nat.zero_add]; exact hr j hj)
    simpa [fetchJson, Nat.zero_add] using h
  refine ⟨hstop, ?_, hexh, ?_, ?_⟩
  · intro resp maxRetries base s body hpos hresp h4 h5
    have h := hstop resp maxRetries base 0 s body hpos (by omega) hresp (by omega)
    simpa [show ¬(200 ≤ s ∧ s < 300) from by omega] using h
  · intro base body
    have h := hstop (fun att => if att < 3 then .ok 503 .jnull else .ok 200 body) 4 base
      3 200 body (by omega)
      (fun j hj => by
        show retryable (if j < 3 then NetResp.ok 503 .jnull else NetResp.ok 200 body) = true
        rw [if_pos hj]
        rfl)
      (by norm_num) (by omega)
    simpa [List.range_succ, show (200 ≤ 200 ∧ 200 < 300) from by omega] using h
  · intro base
    have h := hexh (fun _ => NetResp.ok 500 .jnull) 4 base (by omega)
      (fun j _ => by rw [retryable]; rfl)
    simpa [List.range_succ, finalErr] using h

/-- Witness for C7: a 404 on the first attempt fails immediately with no
back-off sleep. -/
theorem fetch_json_retry_policy_witness :
    fetchJson (fun _ => NetResp.ok 404 .jnull) 4 1 = (.clientError 404, []) := by
  have h := fetch_json_retry_policy.2.1 (fun _ => NetResp.ok 404 .jnull) 4 1 404 .jnull
    (by omega) rfl (by omega) (by omega)
  exact h

theorem fdcStep_shape (fdc : FdcBehavior) (r : NutritionResponse)
    (h : fdcStep fdc = some r) :
    r.source = "fdc" ∧
    (truthyQ r.calories || truthyQ r.protein || truthyQ r.fat || truthyQ r.carbs) = true := by
  rcases fdc with _ | j
  · cases h
  · rw [fdcStep] at h
    rcases hx : fdcSimpleExtract j with _ | x
    · rw [hx] at h
      cases h
    · rcases x with _ | ⟨c, p, f, cb⟩
      · rw [hx] at h
        cases h
      · rw [hx] at h
        simp only at h
        by_cases hg : (truthyQ c || truthyQ p || truthyQ f || truthyQ cb) = true
        · rw [if_pos hg] at h
          cases h
          exact ⟨rfl, hg⟩
        · rw [if_neg hg] at h
          cases h

theorem cnStep_source (cn : CNBehavior) (r : NutritionResponse)
    (h : cnStep cn = some r) : r.source = "calorieninjas" := by
  rcases cn with _ | ⟨status, body⟩
  · cases h
  · unfold cnStep at h
    simp only [] at h
    by_cases hs : status = 200
    · rw [if_pos hs] at h
      repeat' split at h
      all_goals cases h
      all_goals rfl
    · rw [if_neg hs] at h
      cases h

/-- C1 counterexample: with the CalorieNinjas key configured and a 200
response whose first item is an empty dict, the simple flow returns a
result tagged "calorieninjas" with all four numeric fields absent instead
of falling through — the claimed source-tag invariant fails for this
provider. -/
theorem source_invariant_cex :
    getNutrition true false cnEmptyItemResp .raise "banana" = .ok cnAllAbsent ∧
    cnAllAbsent.source = "calorieninjas" ∧ cnAllAbsent.calories = none ∧
    cnAllAbsent.protein = none ∧ cnAllAbsent.fat = none ∧ cnAllAbsent.carbs = none :=
  ⟨by decide, rfl, rfl, rfl, rfl, rfl⟩

/-- C1 (amended): every simple-flow result's source is one of the four
tags; source "none" implies all four fields absent; source "fdc" implies at
least one field present (indeed nonzero); source "fallback" implies all
four fields present. No such guarantee holds for "calorieninjas", whose
step returns its first item unchecked. -/
theorem source_invariant_amended (cnKey fdcKey : Bool) (cn : CNBehavior)
    (fdc : FdcBehavior) (foodName : String) (r : NutritionResponse)
    (h : getNutrition cnKey fdcKey cn fdc foodName = .ok r) :
    (r.source = "calorieninjas" ∨ r.source = "fdc" ∨ r.source = "fallback" ∨
      r.source = "none") ∧
    (r.source = "none" →
      r.calories = none ∧ r.protein = none ∧ r.fat = none ∧ r.carbs = none) ∧
    (r.source = "fdc" →
      (truthyQ r.calories || truthyQ r.protein || truthyQ r.fat || truthyQ r.carbs) = true) ∧
    (r.source = "fallback" →
      r.calories.isSome ∧ r.protein.isSome ∧ r.fat.isSome ∧ r.carbs.isSome) := by
  unfold getNutrition at h
  by_cases hq : pyLowerStrip foodName = ""
  · rw [if_pos hq] at h
    cases h
  · rw [if_neg hq] at h
    rcases hcn : (if cnKey then cnStep cn else none) with _ | rc
    · rw [hcn] at h
      rcases hfd : (if fdcKey then fdcStep fdc else none) with _ | rf
      · rw [hfd] at h
        rcases hfb : getNutrition.jGetFB (pyLowerStrip foodName) with _ | ⟨c, p, f, cb⟩
        · rw [hfb] at h
          cases h
          refine ⟨Or.inr (Or.inr (Or.inr rfl)), fun _ => ⟨rfl, rfl, rfl, rfl⟩,
            fun hs => absurd hs (by decide), fun hs => absurd hs (by decide)⟩
        · rw [hfb] at h
          cases h
          refine ⟨Or.inr (Or.inr (Or.inl rfl)), fun hs => by simp at hs,
            fun hs => by simp at hs, fun _ => ⟨rfl, rfl, rfl, rfl⟩⟩
      · rw [hfd] at h
        cases h
        have hstep : fdcStep fdc = some r := by
          cases fdcKey
          · simp at hfd
          · simpa using hfd
        obtain ⟨hsrc, htr⟩ := fdcStep_shape fdc r hstep
        refine ⟨Or.inr (Or.inl hsrc), fun hs => ?_, fun _ => htr, fun hs => ?_⟩
        · rw [hsrc] at hs
          exact absurd hs (by decide)
        · rw [hsrc] at hs
          exact absurd hs (by decide)
    · rw [hcn] at h
      cases h
      have hstep : cnStep cn = some r := by
        cases cnKey
        · simp at hcn
        · simpa using hcn
      have hsrc := cnStep_source cn r hstep
      refine ⟨Or.inl hsrc, fun hs => ?_, fun hs => ?_, fun hs => ?_⟩ <;>
        (rw [hsrc] at hs; exact absurd hs (by decide))

/-- Witness for C1 at the end-to-end "banana with no providers" run, which
resolves from the static fallback map. -/
theorem source_invariant_amended_witness :
    (fallbackBanana.source = "calorieninjas" ∨ fallbackBanana.source = "fdc" ∨
      fallbackBanana.source = "fallback" ∨ fallbackBanana.source = "none") ∧
    (fallbackBanana.source = "none" →
      fallbackBanana.calories = none ∧ fallbackBanana.protein = none ∧
      fallbackBanana.fat = none ∧ fallbackBanana.carbs = none) ∧
    (fallbackBanana.source = "fdc" →
      (truthyQ fallbackBanana.calories || truthyQ fallbackBanana.protein ||
        truthyQ fallbackBanana.fat || truthyQ fallbackBanana.carbs) = true) ∧
    (fallbackBanana.source = "fallback" →
      fallbackBanana.calories.isSome ∧ fallbackBanana.protein.isSome ∧
      fallbackBanana.fat.isSome ∧ fallbackBanana.carbs.isSome) :=
  source_invariant_amended false false .raise .raise "banana" fallbackBanana (by decide)

/-- C2 counterexample: the FDC step extracts a record whose calories slot is
present with value 0 (code "208" measured as 0, the other slots absent) and
advances anyway — `any([...])` treats present zeros like absences — whereas
the claim requires a return with source "fdc" whenever not all four fields
are absent. The query falls through to the terminal "none" result. -/
theorem step_advance_cex :
    fdcSimpleExtract fdcZeroBody = some (some (some 0, none, none, none)) ∧
    getNutrition false true .raise (.body fdcZeroBody) "zzz" = .ok noneResponse :=
  ⟨by decide, by decide⟩

/-- C2 (amended): a provider step advances when unconfigured, and a swallowed
adapter failure behaves exactly like an unconfigured provider (the chain is
not aborted); the FDC step returns its record with tag "fdc" iff at least
one extracted field is present **and nonzero**, and advances when every
field is absent or zero; the CalorieNinjas step tags everything it returns
"calorieninjas" (but does not check its record for absence). -/
theorem step_advance_amended :
    (∀ (fdcKey : Bool) (fdc : FdcBehavior) (name : String),
      getNutrition true fdcKey .raise fdc name =
        getNutrition false fdcKey .raise fdc name) ∧
    (∀ (cnKey : Bool) (cn : CNBehavior) (name : String),
      getNutrition cnKey true cn .raise name = getNutrition cnKey false cn .raise name) ∧
    (∀ (j : Json) (c p f cb : Option ℚ), fdcSimpleExtract j = some (some (c, p, f, cb)) →
      ((truthyQ c || truthyQ p || truthyQ f || truthyQ cb) = true →
        fdcStep (.body j) = some ⟨c, p, f, cb, "fdc"⟩) ∧
      ((truthyQ c || truthyQ p || truthyQ f || truthyQ cb) = false →
        fdcStep (.body j) = none)) ∧
    (∀ (cn : CNBehavior) (r : NutritionResponse), cnStep cn = some r →
      r.source = "calorieninjas") := by
  refine ⟨fun fdcKey fdc name => rfl, fun cnKey cn name => ?_,
    fun j c p f cb hx => ⟨fun hg => ?_, fun hg => ?_⟩, cnStep_source⟩
  · cases cnKey <;> rfl
  · rw [fdcStep, hx]
    simp only [] 
    rw [if_pos hg]
  · rw [fdcStep, hx]
    simp only []
    rw [if_neg (by simp [hg])]

/-- Witness for C2: an FDC body with Energy 100 makes the FDC step return
with source "fdc". -/
theorem step_advance_amended_witness :
    fdcStep (.body fdcEnergyBody) = some ⟨some 100, none, none, none, "fdc"⟩ :=
  (step_advance_amended.2.2.1 fdcEnergyBody (some 100) none none none (by decide)).1
    (by decide)
